import Mathlib

/-!
Shallow embedding of `src/core/generator.py` (pptx slide-deck generator).

The document-model library (python-pptx) is treated as a boundary: shapes,
text frames and layouts are modelled as explicit data, and the fallible
library insertion/save operations are modelled by an environment `Env` of
boolean success oracles (a `false` entry means the corresponding library
call raises, which the source catches where it has a `try`/`except`).
-/

namespace PptGen

/-- Placeholder kinds distinguished by the source (`PP_PLACEHOLDER.TITLE`,
`BODY`, `OBJECT`); every other placeholder type behaves uniformly and is
collapsed into `other`. -/
inductive PType
  | title
  | body
  | obj
  | other
deriving DecidableEq

/-- One paragraph of a text frame: text, indent level, and the
paragraph-level formatting attributes the source reads or writes
(`alignment`, `font.name`, `font.size`). -/
structure Para where
  text : String
  level : Nat
  alignment : Option Nat
  fontName : Option String
  fontSize : Option Nat
deriving DecidableEq

/-- A text frame is an ordered list of paragraphs. -/
structure TextFrame where
  paragraphs : List Para
deriving DecidableEq

/-- Bounding box of a shape: `left`, `top`, `width`, `height` (EMU). -/
structure BBox where
  left : Int
  top : Int
  width : Int
  height : Int
deriving DecidableEq

/-- A shape, as the source observes it: a placeholder (with its
placeholder type, placeholder `idx` and text frame), a picture (raw image
bytes, bounding box, optional rotation attribute), a text box, an auto
shape (whose text frame is optional: `hasattr(shape, "text")`), or any
other shape kind (`Generic`). -/
inductive Shape
  | placeholder (ptype : PType) (phIdx : Nat) (tf : TextFrame)
  | picture (blob : List Nat) (bbox : BBox) (rotation : Option Int)
  | textBox (bbox : BBox) (tf : TextFrame)
  | autoShape (bbox : BBox) (tf : Option TextFrame)
  | generic
deriving DecidableEq

/-- A slide layout: the placeholder shapes it provides to new slides. -/
structure Layout where
  placeholders : List Shape
deriving DecidableEq

/-- A slide: its ordered shape list and the layout it was created from
(`slide.slide_layout`). -/
structure Slide where
  shapes : List Shape
  layout : Layout
deriving DecidableEq

/-- A presentation document: ordered slides and the layout collection
(`prs.slides`, `prs.slide_layouts`). -/
structure Document where
  slides : List Slide
  slideLayouts : List Layout
deriving DecidableEq

/-- One content item: `{"title": ..., "points": [...]}`. -/
structure ContentItem where
  title : String
  points : List String
deriving DecidableEq

/-- Environment of library-boundary behaviour: success oracles for the
fallible insertion and save calls, and the layouts of the default
presentation `Presentation()` (which has no slides). -/
structure Env where
  picOk : List Nat → BBox → Bool
  textboxOk : BBox → Bool
  saveOk : String → Bool
  defaultLayouts : List Layout

/-- Whether a shape is a placeholder (`shape.is_placeholder`). -/
def isPlaceholderB : Shape → Bool
  | .placeholder _ _ _ => true
  | _ => false

/-- Whether a shape is a Title placeholder. -/
def isTitlePh : Shape → Bool
  | .placeholder .title _ _ => true
  | _ => false

/-- Whether a shape is a Body-or-Object placeholder. -/
def isContentPh : Shape → Bool
  | .placeholder .body _ _ => true
  | .placeholder .obj _ _ => true
  | _ => false

/-- Whether a shape is a Body placeholder (the fallback builder tests
`placeholder_format.type == PP_PLACEHOLDER.BODY` only). -/
def isBodyPh : Shape → Bool
  | .placeholder .body _ _ => true
  | _ => false

/-- A fresh default paragraph (`add_paragraph` / a new textbox paragraph):
empty text, level 0, no explicit formatting. -/
def mkPara (s : String) : Para :=
  { text := s, level := 0, alignment := none, fontName := none, fontSize := none }

/-- `text_frame.clear()`: remove every paragraph but the first, and strip
the first paragraph's runs (its paragraph properties survive). -/
def clearTF (tf : TextFrame) : TextFrame :=
  match tf.paragraphs with
  | [] => ⟨[mkPara ""]⟩
  | p :: _ => ⟨[{ p with text := "" }]⟩

/-- Reading `shape.text`: paragraph texts joined by newlines. -/
def tfText (tf : TextFrame) : String :=
  String.intercalate "\n" (tf.paragraphs.map Para.text)

/-- Split a character list at newlines (the library's text setter turns
each line into one paragraph). -/
def splitLinesAux : List Char → List Char → List (List Char)
  | [], cur => [cur.reverse]
  | c :: rest, cur =>
    if c = '\n' then cur.reverse :: splitLinesAux rest []
    else splitLinesAux rest (c :: cur)

/-- The lines of a string (`s.splitOn "\n"`), structurally. -/
def splitLines (s : String) : List String :=
  (splitLinesAux s.data []).map String.mk

/-- Writing `shape.text = s` / `text_frame.text = s`: clear, put the first
line into the (retained) first paragraph, and append one new paragraph per
further line. -/
def setTFText (tf : TextFrame) (s : String) : TextFrame :=
  let cleared := clearTF tf
  match splitLines s with
  | [] => cleared
  | l0 :: rest =>
    match cleared.paragraphs with
    | [] => ⟨(l0 :: rest).map mkPara⟩
    | p :: _ => ⟨{ p with text := l0 } :: rest.map mkPara⟩

/-- The shared point-population rule (lines 253-262 and 287-294 of the
source): write `points[0]` into the first paragraph, then append one new
paragraph per remaining point, each set to level 0. -/
def addPointsTF (tf : TextFrame) (points : List String) : TextFrame :=
  match points with
  | [] => tf
  | p0 :: rest =>
    match tf.paragraphs with
    | [] => ⟨(p0 :: rest).map mkPara⟩
    | q :: qs => ⟨({ q with text := p0 } :: qs) ++ rest.map mkPara⟩

/-- Apply a text-frame transformation to a shape that has a text frame. -/
def setShapeTFBy (f : TextFrame → TextFrame) : Shape → Shape
  | .placeholder t i tf => .placeholder t i (f tf)
  | .textBox b tf => .textBox b (f tf)
  | s => s

/-- `shape.text = s` on a placeholder or text box. -/
def setShapeText (s : String) : Shape → Shape :=
  setShapeTFBy (fun tf => setTFText tf s)

/-- In-place update of the shape at one index (Python mutates the shape
object the scan recorded; the list itself is unchanged). -/
def modifyAt (f : Shape → Shape) : Nat → List Shape → List Shape
  | _, [] => []
  | 0, s :: rest => f s :: rest
  | n + 1, s :: rest => s :: modifyAt f n rest

/-! ### TemplateAnalyzer: `find_best_content_slide` (source lines 55-85) -/

/-- Per-slide score of `find_best_content_slide`: the inner loop adds `+2`
for every Title placeholder shape and `+3` for every Body/Object
placeholder shape, then a `+5` bonus when both flags are set. -/
def slideScoreStep (acc : Nat × Bool × Bool) (sh : Shape) : Nat × Bool × Bool :=
  match sh with
  | .placeholder .title _ _ => (acc.1 + 2, true, acc.2.2)
  | .placeholder .body _ _ => (acc.1 + 3, acc.2.1, true)
  | .placeholder .obj _ _ => (acc.1 + 3, acc.2.1, true)
  | _ => acc

/-- The score the source computes for one slide. -/
def slideScore (s : Slide) : Nat :=
  let r := s.shapes.foldl slideScoreStep (0, false, false)
  if r.2.1 && r.2.2 then r.1 + 5 else r.1

/-- The selection loop of `find_best_content_slide`: keep the current best
slide and best score, replacing them only on a strictly greater score
(so the first slide attaining the maximum wins). Parameterised by the
scoring function so the spec's scoring variant can reuse it. -/
def findBestAux (score : Slide → Nat) : Option Slide → Nat → List Slide → Option Slide
  | best, _, [] => best
  | best, bs, s :: rest =>
    if bs < score s then findBestAux score (some s) (score s) rest
    else findBestAux score best bs rest

/-- `find_best_content_slide(template_prs)`: best slide starts as `None`
with best score `0`. -/
def find_best_content_slide (prs : Document) : Option Slide :=
  findBestAux slideScore none 0 prs.slides

/-! ### ContentPopulator: `populate_slide_content` (source lines 225-262) -/

/-- The placeholder scan of `populate_slide_content`: one pass over
`slide.shapes`, recording the index of the Title placeholder and the
Body/Object placeholder in the loop variables (each later match
overwrites the earlier one, as in the source loop, which has no
first-match guard). -/
def phScanAux : List Shape → Nat → Option Nat → Option Nat → Option Nat × Option Nat
  | [], _, t, c => (t, c)
  | sh :: rest, i, t, c =>
    match sh with
    | .placeholder .title _ _ => phScanAux rest (i + 1) (some i) c
    | .placeholder .body _ _ => phScanAux rest (i + 1) t (some i)
    | .placeholder .obj _ _ => phScanAux rest (i + 1) t (some i)
    | _ => phScanAux rest (i + 1) t c

/-- Indices of the shapes recorded as `title_shape` and `content_shape`. -/
def phScan (shapes : List Shape) : Option Nat × Option Nat :=
  phScanAux shapes 0 none none

/-- The body fill of `populate_slide_content`: `tf.clear()`, then the
shared point-population rule. -/
def populateBodyTF (points : List String) (tf : TextFrame) : TextFrame :=
  addPointsTF (clearTF tf) points

/-- `populate_slide_content(slide, content)`: set the recorded title
shape's text when the title is non-empty, and clear-and-fill the recorded
content shape's text frame when the points list is non-empty. -/
def populate_slide_content (slide : Slide) (content : ContentItem) : Slide :=
  let scan := phScan slide.shapes
  let shapes :=
    match scan.1 with
    | some i => if content.title ≠ "" then modifyAt (setShapeText content.title) i slide.shapes else slide.shapes
    | none => slide.shapes
  let shapes :=
    match scan.2 with
    | some i => if content.points ≠ [] then modifyAt (setShapeTFBy (populateBodyTF content.points)) i shapes else shapes
    | none => shapes
  { slide with shapes := shapes }

/-! ### ShapeReplicator (source lines 104-223) -/

/-- Pairwise paragraph formatting copy of `copy_text_formatting`:
alignment is always assigned; `font.name` and `font.size` only when the
source value is truthy. -/
def copyParaFormat (src tgt : Para) : Para :=
  let tgt := { tgt with alignment := src.alignment }
  let tgt := if src.fontName.getD "" ≠ "" then { tgt with fontName := src.fontName } else tgt
  if src.fontSize.getD 0 ≠ 0 then { tgt with fontSize := src.fontSize } else tgt

/-- `copy_text_formatting(source_tf, target_tf)`: `zip` over the
paragraphs copies only the common prefix; the remaining target paragraphs
are untouched. -/
def copy_text_formatting (src tgt : TextFrame) : TextFrame :=
  ⟨List.zipWith copyParaFormat src.paragraphs tgt.paragraphs
    ++ tgt.paragraphs.drop src.paragraphs.length⟩

/-- `copy_image_shape(source_shape, target_slide)`: read the blob, insert
a picture at the source's bounding box, and carry the rotation over when
the source exposes one (a fresh picture's rotation is `0`). A failing
`add_picture` call (the `Env` oracle) is caught by the function's own
`except`, leaving the slide unchanged. -/
def copy_image_shape (env : Env) (blob : List Nat) (bbox : BBox) (rot : Option Int)
    (target : Slide) : Slide :=
  if env.picOk blob bbox then
    { target with shapes := target.shapes ++ [.picture blob bbox (some (rot.getD 0))] }
  else target

/-- `copy_text_or_shape(source_shape, target_slide)`: when the source
exposes text, add a text box at the same bounding box, set its text to the
source's full text, and copy paragraph formatting; shapes without text are
an explicit no-op. A failing `add_textbox` call is caught. -/
def copy_text_or_shape (env : Env) (bbox : BBox) (tfSrc : Option TextFrame)
    (target : Slide) : Slide :=
  match tfSrc with
  | some tf =>
    if env.textboxOk bbox then
      let newTF := setTFText ⟨[mkPara ""]⟩ (tfText tf)
      let newTF := copy_text_formatting tf newTF
      { target with shapes := target.shapes ++ [.textBox bbox newTF] }
    else target
  | none => target

/-- `copy_shape_to_slide(source_shape, target_slide)`: dispatch on the
shape type; pictures and text-capable shapes are copied, everything else
falls to `copy_generic_shape`, whose body is `pass`. -/
def copy_shape_to_slide (env : Env) (src : Shape) (target : Slide) : Slide :=
  match src with
  | .picture blob bbox rot => copy_image_shape env blob bbox rot target
  | .textBox bbox tf => copy_text_or_shape env bbox (some tf) target
  | .autoShape bbox tfSrc => copy_text_or_shape env bbox tfSrc target
  | _ => target

/-- `copy_template_visual_elements(template_slide, new_slide)`: collect
every non-placeholder shape of the template slide, then copy each onto the
new slide. -/
def copy_template_visual_elements (env : Env) (templateSlide target : Slide) : Slide :=
  let shapesToCopy := templateSlide.shapes.filter (fun sh => !isPlaceholderB sh)
  shapesToCopy.foldl (fun tgt sh => copy_shape_to_slide env sh tgt) target

/-! ### SlideFactory and Orchestrator (source lines 10-53, 87-102) -/

/-- `prs.slides.add_slide(layout)`: a fresh slide holding clones of the
layout's placeholder shapes. -/
def add_slide (layout : Layout) : Slide :=
  { shapes := layout.placeholders.filter isPlaceholderB, layout := layout }

/-- `duplicate_slide_with_content(new_prs, layout, template_slide,
content)`: add a slide from the layout, copy the template slide's visual
elements when a template slide exists, populate the placeholders, and
append the slide to the document. -/
def duplicate_slide_with_content (env : Env) (prs : Document) (layout : Layout)
    (templateSlide : Option Slide) (content : ContentItem) : Document :=
  let newSlide := add_slide layout
  let newSlide :=
    match templateSlide with
    | some ts => copy_template_visual_elements env ts newSlide
    | none => newSlide
  let newSlide := populate_slide_content newSlide content
  { prs with slides := prs.slides ++ [newSlide] }

/-- The reverse-index deletion loop: `for i in reversed(range(n)): del
slides[i]`, erasing index `n-1` first, then `n-2`, down to `0`. -/
def delRevLoop : Nat → List Slide → List Slide
  | 0, l => l
  | n + 1, l => delRevLoop n (l.eraseIdx n)

/-- Removing every existing slide from the working document (source lines
32-36). -/
def removeAllSlides (l : List Slide) : List Slide :=
  delRevLoop l.length l

/-- `slide.shapes.title`: the first placeholder whose placeholder `idx` is
`0`, scanning in shape order; `none` when there is no such placeholder. -/
def shapesTitleIdx : List Shape → Option Nat :=
  go 0
where
  go : Nat → List Shape → Option Nat
    | _, [] => none
    | i, .placeholder _ 0 _ :: _ => some i
    | i, _ :: rest => go (i + 1) rest

/-- The fallback builder's placeholder loop: the first placeholder of type
`BODY` in shape order (`break` after it). -/
def firstBodyIdx : List Shape → Option Nat :=
  go 0
where
  go : Nat → List Shape → Option Nat
    | _, [] => none
    | i, sh :: rest => if isBodyPh sh then some i else go (i + 1) rest

/-- One slide of `create_basic_presentation` (source lines 274-295): set
the title placeholder's text when present (unconditionally, even to an
empty title), then clear the first Body placeholder and fill it when the
points list is non-empty. -/
def fallbackFillSlide (slide : Slide) (content : ContentItem) : Slide :=
  let shapes :=
    match shapesTitleIdx slide.shapes with
    | some i => modifyAt (setShapeText content.title) i slide.shapes
    | none => slide.shapes
  let shapes :=
    match firstBodyIdx shapes with
    | some i =>
      modifyAt (setShapeTFBy (fun tf =>
        let tf := clearTF tf
        if content.points ≠ [] then addPointsTF tf content.points else tf)) i shapes
    | none => shapes
  { slide with shapes := shapes }

/-- `create_basic_presentation(slide_data, output_path)`: a fresh default
presentation (no slides), the second layout when more than one exists else
the first (an `IndexError` on an empty layout collection propagates —
this function has no `except`), one slide per content item, then save. -/
def create_basic_presentation (env : Env) (slideData : List ContentItem)
    (outputPath : String) : Except String Document :=
  match (if 1 < env.defaultLayouts.length then env.defaultLayouts.get? 1
         else env.defaultLayouts.get? 0) with
  | none => .error "IndexError: slide_layouts"
  | some layout =>
    let prs : Document := { slides := [], slideLayouts := env.defaultLayouts }
    let prs := slideData.foldl (fun prs content =>
      { prs with slides := prs.slides ++ [fallbackFillSlide (add_slide layout) content] }) prs
    if env.saveOk outputPath then .ok prs else .error "save failed"

/-- The guarded region of `create_ppt_from_template` (the `try` block,
source lines 20-48): load the template, pick the exemplar slide and its
layout (or `slide_layouts[1]`, which raises when fewer than two layouts
exist), reload the template as the working document, drop every existing
slide, build one slide per content item, and save. Any `.error` is what
the `except` catches. -/
def templateAttempt (env : Env) (slideData : List ContentItem) (templatePrs : Document)
    (outputPath : String) : Except String Document :=
  match (match find_best_content_slide templatePrs with
         | some s => Except.ok (some s, s.layout)
         | none =>
           match templatePrs.slideLayouts.get? 1 with
           | some l => Except.ok (none, l)
           | none => Except.error "IndexError: slide_layouts") with
  | .error e => .error e
  | .ok (templateSlide, layout) =>
    let newPrs := { templatePrs with slides := removeAllSlides templatePrs.slides }
    let newPrs := slideData.foldl
      (fun prs c => duplicate_slide_with_content env prs layout templateSlide c) newPrs
    if env.saveOk outputPath then .ok newPrs else .error "save failed"

/-- `create_ppt_from_template(slide_data, output_path, template_path)`:
`template = none` models an absent or non-existing template path (the
early fallback), `some (.error e)` a path whose load raises, and
`some (.ok doc)` a loadable template. Any failure in the guarded region
falls back to `create_basic_presentation`; the result is the document
saved at `output_path` (or the error that escaped the fallback). -/
def create_ppt_from_template (env : Env) (slideData : List ContentItem)
    (template : Option (Except String Document)) (outputPath : String) :
    Except String Document :=
  match template with
  | none => create_basic_presentation env slideData outputPath
  | some tl =>
    match (tl.bind (fun tp => templateAttempt env slideData tp outputPath)) with
    | .ok doc => .ok doc
    | .error _ => create_basic_presentation env slideData outputPath

/-! ### Specification helpers and concrete instances -/

/-- Index of the last shape satisfying a predicate (specification helper
used to characterise the overwrite-style scan of
`populate_slide_content`). -/
def lastIdxP (p : Shape → Bool) : List Shape → Option Nat
  | [] => none
  | s :: rest =>
    match lastIdxP p rest with
    | some k => some (k + 1)
    | none => if p s then some 0 else none

/-- Modelled from the spec's words for the TemplateAnalyzer claim: a
per-slide boolean score, `+2` if the slide has a Title placeholder, `+3`
if it has a Body-or-Object placeholder, `+5` bonus if both are present
(contrast with the per-shape increments of `slideScore`). -/
def claimSlideScore (s : Slide) : Nat :=
  (if s.shapes.any isTitlePh then 2 else 0)
    + (if s.shapes.any isContentPh then 3 else 0)
    + (if s.shapes.any isTitlePh && s.shapes.any isContentPh then 5 else 0)

/-- Modelled from the spec's words: return the slide with the strictly
highest `claimSlideScore`, the first in document order winning ties. -/
def claimFindBest (prs : Document) : Option Slide :=
  findBestAux claimSlideScore none 0 prs.slides

/-- Observable paragraph texts of a text-carrying shape. -/
def shapeParaTexts : Shape → List String
  | .placeholder _ _ tf => tf.paragraphs.map Para.text
  | .textBox _ tf => tf.paragraphs.map Para.text
  | _ => []

/-- Observable placeholder/text content of one slide. -/
def slideTexts (s : Slide) : List (List String) :=
  s.shapes.map shapeParaTexts

/-- Raw bytes of every picture on a slide. -/
def slideBlobs (s : Slide) : List (List Nat) :=
  s.shapes.filterMap (fun sh =>
    match sh with
    | .picture b _ _ => some b
    | _ => none)

/-- An all-succeeding environment whose default presentation has a blank
first layout and a Title+Body second layout. -/
def envT : Env :=
  { picOk := fun _ _ => true
    textboxOk := fun _ => true
    saveOk := fun _ => true
    defaultLayouts :=
      [⟨[]⟩,
       ⟨[Shape.placeholder .title 0 ⟨[mkPara ""]⟩,
         Shape.placeholder .body 1 ⟨[mkPara ""]⟩]⟩] }

/-- A slide holding a single Title placeholder. -/
def slideTitleOnly : Slide := ⟨[Shape.placeholder .title 0 ⟨[]⟩], ⟨[]⟩⟩

/-- A slide holding two Title placeholders. -/
def slideTwoTitles : Slide :=
  ⟨[Shape.placeholder .title 0 ⟨[]⟩, Shape.placeholder .title 1 ⟨[]⟩], ⟨[]⟩⟩

/-- A slide holding a Title and a Body placeholder. -/
def slideTitleBody : Slide :=
  ⟨[Shape.placeholder .title 0 ⟨[]⟩, Shape.placeholder .body 1 ⟨[]⟩], ⟨[]⟩⟩

/-- Title-only slide followed by a two-Title slide: a tie under the
claim's boolean scoring, not under the source's per-shape scoring. -/
def docTieBreak : Document := ⟨[slideTitleOnly, slideTwoTitles], []⟩

/-- Title-only slide followed by a Title+Body slide. -/
def docTB : Document := ⟨[slideTitleOnly, slideTitleBody], []⟩

/-- A slide with two Title placeholders carrying distinct texts. -/
def slideDupTitles : Slide :=
  ⟨[Shape.placeholder .title 0 ⟨[mkPara "o1"]⟩,
    Shape.placeholder .title 1 ⟨[mkPara "o2"]⟩], ⟨[]⟩⟩

/-- A content item with a title and no points. -/
def itemTitleOnly : ContentItem := ⟨"T", []⟩

/-- An environment whose default presentation's only layout provides one
Object placeholder (kernel of the fallback Body/Object divergence). -/
def envObjOnly : Env :=
  { picOk := fun _ _ => true
    textboxOk := fun _ => true
    saveOk := fun _ => true
    defaultLayouts := [⟨[Shape.placeholder .obj 1 ⟨[mkPara "x"]⟩]⟩] }

/-- A template slide holding one picture and one Title placeholder. -/
def slideWithPicture : Slide :=
  ⟨[Shape.picture [1, 2] ⟨1, 2, 3, 4⟩ (some 7),
    Shape.placeholder .title 0 ⟨[mkPara "x"]⟩], ⟨[]⟩⟩

/-- An empty document over the blank layout. -/
def emptyDoc : Document := ⟨[], [⟨[]⟩]⟩

/-- The deck produced on the fallback path for one item (used to witness
the slide-count theorem with the hypothesis discharged by computation). -/
def c1Doc : Document :=
  ((create_ppt_from_template envT [⟨"t", ["a"]⟩] none "o").toOption).getD ⟨[], []⟩

/-- The deck saved at path `p` for a fixed fallback run. -/
def c8Doc (p : String) : Document :=
  ((create_ppt_from_template envT [⟨"t", ["a"]⟩] none p).toOption).getD ⟨[], []⟩

/-! ### Helper lemmas -/

theorem modifyAt_length (f : Shape → Shape) (i : Nat) (l : List Shape) :
    (modifyAt f i l).length = l.length := by
  induction l generalizing i with
  | nil => cases i <;> simp [modifyAt]
  | cons s rest ih =>
    cases i with
    | zero => simp [modifyAt]
    | succ n => simp [modifyAt, ih]

theorem modifyAt_get?_eq (f : Shape → Shape) (i : Nat) (l : List Shape) :
    (modifyAt f i l)[i]? = (l[i]?).map f := by
  induction l generalizing i with
  | nil => cases i <;> simp [modifyAt]
  | cons s rest ih =>
    cases i with
    | zero => simp [modifyAt]
    | succ n => simpa [modifyAt] using ih n

theorem modifyAt_get?_ne (f : Shape → Shape) {i j : Nat} (l : List Shape) (h : j ≠ i) :
    (modifyAt f i l)[j]? = l[j]? := by
  induction l generalizing i j with
  | nil => cases i <;> simp [modifyAt]
  | cons s rest ih =>
    cases i with
    | zero =>
      cases j with
      | zero => exact absurd rfl h
      | succ m => simp [modifyAt]
    | succ n =>
      cases j with
      | zero => simp [modifyAt]
      | succ m =>
        have : m ≠ n := by omega
        simpa [modifyAt] using ih this

theorem eraseIdx_last_length :
    ∀ (l : List Slide) (n : Nat), l.length = n + 1 → (l.eraseIdx n).length = n := by
  intro l
  induction l with
  | nil => intro n h; simp at h
  | cons s rest ih =>
    intro n h
    cases n with
    | zero =>
      simp at h
      simp [List.eraseIdx, h]
    | succ m =>
      simp at h
      simpa [List.eraseIdx] using ih m h

theorem delRevLoop_eq_nil : ∀ (n : Nat) (l : List Slide), l.length = n → delRevLoop n l = [] := by
  intro n
  induction n with
  | zero =>
    intro l h
    cases l with
    | nil => rfl
    | cons s rest => simp at h
  | succ m ih =>
    intro l h
    show delRevLoop m (l.eraseIdx m) = []
    exact ih _ (eraseIdx_last_length l m h)

theorem removeAllSlides_eq_nil (l : List Slide) : removeAllSlides l = [] :=
  delRevLoop_eq_nil l.length l rfl

theorem duplicate_slides_eq (env : Env) (prs : Document) (layout : Layout)
    (ts : Option Slide) (c : ContentItem) :
    (duplicate_slide_with_content env prs layout ts c).slides.length
      = prs.slides.length + 1 := by
  cases ts <;> simp [duplicate_slide_with_content]

theorem fold_dup_length (env : Env) (layout : Layout) (ts : Option Slide) :
    ∀ (items : List ContentItem) (prs : Document),
      ((items.foldl (fun prs c => duplicate_slide_with_content env prs layout ts c) prs).slides.length)
        = prs.slides.length + items.length := by
  intro items
  induction items with
  | nil => intro prs; simp
  | cons c rest ih =>
    intro prs
    have h := ih (duplicate_slide_with_content env prs layout ts c)
    simp only [List.foldl] at *
    rw [h, duplicate_slides_eq]
    simp [Nat.add_assoc, Nat.add_comm 1 rest.length]

theorem fold_fallback_length (layout : Layout) :
    ∀ (items : List ContentItem) (prs : Document),
      ((items.foldl (fun prs content =>
          { prs with slides := prs.slides ++ [fallbackFillSlide (add_slide layout) content] }) prs).slides.length)
        = prs.slides.length + items.length := by
  intro items
  induction items with
  | nil => intro prs; simp
  | cons c rest ih =>
    intro prs
    have h := ih { prs with slides := prs.slides ++ [fallbackFillSlide (add_slide layout) c] }
    simp only [List.foldl] at *
    rw [h]
    simp [Nat.add_assoc, Nat.add_comm 1 rest.length]

theorem findBestAux_spec (g : Slide → Nat) :
    ∀ (l : List Slide) (best : Option Slide) (bs : Nat),
      (findBestAux g best bs l = best ∧ ∀ s ∈ l, g s ≤ bs)
      ∨ (∃ (i : Nat) (x : Slide), l[i]? = some x
          ∧ findBestAux g best bs l = some x
          ∧ bs < g x
          ∧ (∀ (j : Nat) (y : Slide), l[j]? = some y → j < i → g y < g x)
          ∧ (∀ (j : Nat) (y : Slide), l[j]? = some y → g y ≤ g x)) := by
  intro l
  induction l with
  | nil => intro best bs; exact Or.inl ⟨rfl, by simp⟩
  | cons s rest ih =>
    intro best bs
    by_cases hs : bs < g s
    · have hstep : findBestAux g best bs (s :: rest) = findBestAux g (some s) (g s) rest := by
        simp [findBestAux, hs]
      rcases ih (some s) (g s) with ⟨heq, hall⟩ | ⟨i, x, hget, heq, hlt, hpre, hall⟩
      · refine Or.inr ⟨0, s, by simp, by rw [hstep, heq], hs, ?_, ?_⟩
        · intro j y hj hjlt; omega
        · intro j y hj
          cases j with
          | zero =>
            simp only [List.getElem?_cons_zero, Option.some.injEq] at hj
            subst hj; exact Nat.le_refl _
          | succ m =>
            simp only [List.getElem?_cons_succ] at hj
            exact hall y (List.getElem?_mem hj)
      · refine Or.inr ⟨i + 1, x, by simpa using hget, by rw [hstep, heq], ?_, ?_, ?_⟩
        · exact Nat.lt_trans hs hlt
        · intro j y hj hjlt
          cases j with
          | zero =>
            simp only [List.getElem?_cons_zero, Option.some.injEq] at hj
            subst hj; exact hlt
          | succ m =>
            simp only [List.getElem?_cons_succ] at hj
            exact hpre m y hj (Nat.lt_of_succ_lt_succ hjlt)
        · intro j y hj
          cases j with
          | zero =>
            simp only [List.getElem?_cons_zero, Option.some.injEq] at hj
            subst hj; exact Nat.le_of_lt hlt
          | succ m =>
            simp only [List.getElem?_cons_succ] at hj
            exact hall m y hj
    · have hstep : findBestAux g best bs (s :: rest) = findBestAux g best bs rest := by
        simp [findBestAux, hs]
      rcases ih best bs with ⟨heq, hall⟩ | ⟨i, x, hget, heq, hlt, hpre, hall⟩
      · refine Or.inl ⟨by rw [hstep, heq], ?_⟩
        intro y hy
        rcases List.mem_cons.mp hy with hy | hy
        · subst hy; omega
        · exact hall y hy
      · refine Or.inr ⟨i + 1, x, by simpa using hget, by rw [hstep, heq], hlt, ?_, ?_⟩
        · intro j y hj hjlt
          cases j with
          | zero =>
            simp only [List.getElem?_cons_zero, Option.some.injEq] at hj
            subst hj; omega
          | succ m =>
            simp only [List.getElem?_cons_succ] at hj
            exact hpre m y hj (Nat.lt_of_succ_lt_succ hjlt)
        · intro j y hj
          cases j with
          | zero =>
            simp only [List.getElem?_cons_zero, Option.some.injEq] at hj
            subst hj; omega
          | succ m =>
            simp only [List.getElem?_cons_succ] at hj
            exact hall m y hj

theorem foldl_score_eq :
    ∀ (l : List Shape) (n : Nat) (a b : Bool),
      l.foldl slideScoreStep (n, a, b)
        = (n + 2 * l.countP isTitlePh + 3 * l.countP isContentPh,
           a || l.any isTitlePh, b || l.any isContentPh) := by
  intro l
  induction l with
  | nil => intro n a b; simp
  | cons sh rest ih =>
    intro n a b
    cases sh with
    | placeholder pt pi ptf =>
      cases pt with
      | title =>
        simp only [List.foldl, slideScoreStep, List.countP_cons, List.any_cons, ih,
          isTitlePh, isContentPh]
        refine Prod.ext ?_ (Prod.ext ?_ ?_) <;> simp <;> omega
      | body =>
        simp only [List.foldl, slideScoreStep, List.countP_cons, List.any_cons, ih,
          isTitlePh, isContentPh]
        refine Prod.ext ?_ (Prod.ext ?_ ?_) <;> simp <;> omega
      | obj =>
        simp only [List.foldl, slideScoreStep, List.countP_cons, List.any_cons, ih,
          isTitlePh, isContentPh]
        refine Prod.ext ?_ (Prod.ext ?_ ?_) <;> simp <;> omega
      | other =>
        simp only [List.foldl, slideScoreStep, List.countP_cons, List.any_cons, ih,
          isTitlePh, isContentPh]
        refine Prod.ext ?_ (Prod.ext ?_ ?_) <;> simp
    | picture blob bbox rot =>
      simp [List.foldl, slideScoreStep, List.countP_cons, List.any_cons, ih,
        isTitlePh, isContentPh]
    | textBox bbox tf =>
      simp [List.foldl, slideScoreStep, List.countP_cons, List.any_cons, ih,
        isTitlePh, isContentPh]
    | autoShape bbox tf =>
      simp [List.foldl, slideScoreStep, List.countP_cons, List.any_cons, ih,
        isTitlePh, isContentPh]
    | generic =>
      simp [List.foldl, slideScoreStep, List.countP_cons, List.any_cons, ih,
        isTitlePh, isContentPh]

theorem slideScore_eq (s : Slide) :
    slideScore s
      = 2 * s.shapes.countP isTitlePh + 3 * s.shapes.countP isContentPh
        + (if s.shapes.any isTitlePh && s.shapes.any isContentPh then 5 else 0) := by
  unfold slideScore
  rw [foldl_score_eq]
  simp only [Bool.false_or]
  cases hc : (s.shapes.any isTitlePh && s.shapes.any isContentPh) with
  | false => simp [hc]
  | true => simp [hc]

theorem slideScore_eq_zero_iff (s : Slide) :
    slideScore s = 0 ↔ ∀ sh ∈ s.shapes, isTitlePh sh = false ∧ isContentPh sh = false := by
  rw [slideScore_eq]
  constructor
  · intro h sh hm
    have h1 : s.shapes.countP isTitlePh = 0 := by
      by_contra hne
      split at h <;> omega
    have h2 : s.shapes.countP isContentPh = 0 := by
      by_contra hne
      split at h <;> omega
    constructor
    · have := List.countP_eq_zero.mp h1 sh hm
      simpa using this
    · have := List.countP_eq_zero.mp h2 sh hm
      simpa using this
  · intro h
    have h1 : s.shapes.countP isTitlePh = 0 :=
      List.countP_eq_zero.mpr (fun a ha => by simp [(h a ha).1])
    have h2 : s.shapes.countP isContentPh = 0 :=
      List.countP_eq_zero.mpr (fun a ha => by simp [(h a ha).2])
    have h3 : s.shapes.any isTitlePh = false := by
      rw [List.any_eq_false]
      intro a ha
      simp [(h a ha).1]
    rw [h1, h2, h3]
    simp

theorem phScanAux_fst :
    ∀ (l : List Shape) (i : Nat) (t c : Option Nat),
      (phScanAux l i t c).1 = (lastIdxP isTitlePh l).elim t (fun k => some (i + k)) := by
  intro l
  induction l with
  | nil => intro i t c; simp [phScanAux, lastIdxP]
  | cons sh rest ih =>
    intro i t c
    cases sh with
    | placeholder pt pi ptf =>
      cases pt with
      | title =>
        cases hk : lastIdxP isTitlePh rest with
        | none => simp [phScanAux, lastIdxP, hk, ih, isTitlePh]
        | some k =>
          simp [phScanAux, lastIdxP, hk, ih, isTitlePh]
          omega
      | body =>
        cases hk : lastIdxP isTitlePh rest with
        | none => simp [phScanAux, lastIdxP, hk, ih, isTitlePh]
        | some k =>
          simp [phScanAux, lastIdxP, hk, ih, isTitlePh]
          omega
      | obj =>
        cases hk : lastIdxP isTitlePh rest with
        | none => simp [phScanAux, lastIdxP, hk, ih, isTitlePh]
        | some k =>
          simp [phScanAux, lastIdxP, hk, ih, isTitlePh]
          omega
      | other =>
        cases hk : lastIdxP isTitlePh rest with
        | none => simp [phScanAux, lastIdxP, hk, ih, isTitlePh]
        | some k =>
          simp [phScanAux, lastIdxP, hk, ih, isTitlePh]
          omega
    | picture blob bbox rot =>
      cases hk : lastIdxP isTitlePh rest with
      | none => simp [phScanAux, lastIdxP, hk, ih, isTitlePh]
      | some k =>
        simp [phScanAux, lastIdxP, hk, ih, isTitlePh]
        omega
    | textBox bbox tf =>
      cases hk : lastIdxP isTitlePh rest with
      | none => simp [phScanAux, lastIdxP, hk, ih, isTitlePh]
      | some k =>
        simp [phScanAux, lastIdxP, hk, ih, isTitlePh]
        omega
    | autoShape bbox tf =>
      cases hk : lastIdxP isTitlePh rest with
      | none => simp [phScanAux, lastIdxP, hk, ih, isTitlePh]
      | some k =>
        simp [phScanAux, lastIdxP, hk, ih, isTitlePh]
        omega
    | generic =>
      cases hk : lastIdxP isTitlePh rest with
      | none => simp [phScanAux, lastIdxP, hk, ih, isTitlePh]
      | some k =>
        simp [phScanAux, lastIdxP, hk, ih, isTitlePh]
        omega

theorem phScanAux_snd :
    ∀ (l : List Shape) (i : Nat) (t c : Option Nat),
      (phScanAux l i t c).2 = (lastIdxP isContentPh l).elim c (fun k => some (i + k)) := by
  intro l
  induction l with
  | nil => intro i t c; simp [phScanAux, lastIdxP]
  | cons sh rest ih =>
    intro i t c
    cases sh with
    | placeholder pt pi ptf =>
      cases pt with
      | title =>
        cases hk : lastIdxP isContentPh rest with
        | none => simp [phScanAux, lastIdxP, hk, ih, isContentPh]
        | some k =>
          simp [phScanAux, lastIdxP, hk, ih, isContentPh]
          omega
      | body =>
        cases hk : lastIdxP isContentPh rest with
        | none => simp [phScanAux, lastIdxP, hk, ih, isContentPh]
        | some k =>
          simp [phScanAux, lastIdxP, hk, ih, isContentPh]
          omega
      | obj =>
        cases hk : lastIdxP isContentPh rest with
        | none => simp [phScanAux, lastIdxP, hk, ih, isContentPh]
        | some k =>
          simp [phScanAux, lastIdxP, hk, ih, isContentPh]
          omega
      | other =>
        cases hk : lastIdxP isContentPh rest with
        | none => simp [phScanAux, lastIdxP, hk, ih, isContentPh]
        | some k =>
          simp [phScanAux, lastIdxP, hk, ih, isContentPh]
          omega
    | picture blob bbox rot =>
      cases hk : lastIdxP isContentPh rest with
      | none => simp [phScanAux, lastIdxP, hk, ih, isContentPh]
      | some k =>
        simp [phScanAux, lastIdxP, hk, ih, isContentPh]
        omega
    | textBox bbox tf =>
      cases hk : lastIdxP isContentPh rest with
      | none => simp [phScanAux, lastIdxP, hk, ih, isContentPh]
      | some k =>
        simp [phScanAux, lastIdxP, hk, ih, isContentPh]
        omega
    | autoShape bbox tf =>
      cases hk : lastIdxP isContentPh rest with
      | none => simp [phScanAux, lastIdxP, hk, ih, isContentPh]
      | some k =>
        simp [phScanAux, lastIdxP, hk, ih, isContentPh]
        omega
    | generic =>
      cases hk : lastIdxP isContentPh rest with
      | none => simp [phScanAux, lastIdxP, hk, ih, isContentPh]
      | some k =>
        simp [phScanAux, lastIdxP, hk, ih, isContentPh]
        omega

theorem phScan_eq (shapes : List Shape) :
    phScan shapes = (lastIdxP isTitlePh shapes, lastIdxP isContentPh shapes) := by
  unfold phScan
  refine Prod.ext ?_ ?_
  · rw [phScanAux_fst]
    cases lastIdxP isTitlePh shapes <;> simp
  · rw [phScanAux_snd]
    cases lastIdxP isContentPh shapes <;> simp

theorem lastIdxP_none (p : Shape → Bool) :
    ∀ l, lastIdxP p l = none ↔ ∀ sh ∈ l, p sh = false := by
  intro l
  induction l with
  | nil => simp [lastIdxP]
  | cons s rest ih =>
    cases hk : lastIdxP p rest with
    | some k =>
      simp only [lastIdxP, hk]
      constructor
      · intro h; exact absurd h (by simp)
      · intro h
        have : ∀ sh ∈ rest, p sh = false := fun sh hm => h sh (List.mem_cons_of_mem _ hm)
        rw [← ih] at this
        rw [this] at hk
        exact absurd hk (by simp)
    | none =>
      simp only [lastIdxP, hk]
      by_cases hps : p s = true
      · simp [hps]
      · simp only [Bool.not_eq_true] at hps
        simp [hps]
        intro sh hm
        exact (ih.mp hk) sh hm

theorem lastIdxP_some_get (p : Shape → Bool) :
    ∀ (l : List Shape) (i : Nat), lastIdxP p l = some i →
      ∃ sh, l[i]? = some sh ∧ p sh = true := by
  intro l
  induction l with
  | nil => intro i h; simp [lastIdxP] at h
  | cons s rest ih =>
    intro i h
    cases hk : lastIdxP p rest with
    | some k =>
      rw [lastIdxP, hk] at h
      simp only [Option.some.injEq] at h
      subst h
      obtain ⟨sh, hget, hp⟩ := ih k hk
      exact ⟨sh, by simpa using hget, hp⟩
    | none =>
      rw [lastIdxP, hk] at h
      by_cases hps : p s = true
      · simp only [hps, if_true, Option.some.injEq] at h
        subst h
        exact ⟨s, by simp, hps⟩
      · simp only [Bool.not_eq_true] at hps
        simp [hps] at h

theorem lastIdxP_last (p : Shape → Bool) :
    ∀ (l : List Shape) (i : Nat), lastIdxP p l = some i →
      ∀ j sh, i < j → l[j]? = some sh → p sh = false := by
  intro l
  induction l with
  | nil => intro i h; simp [lastIdxP] at h
  | cons s rest ih =>
    intro i h j sh hij hj
    cases hk : lastIdxP p rest with
    | some k =>
      rw [lastIdxP, hk] at h
      simp only [Option.some.injEq] at h
      subst h
      cases j with
      | zero => omega
      | succ m =>
        simp only [List.getElem?_cons_succ] at hj
        exact ih k hk m sh (by omega) hj
    | none =>
      rw [lastIdxP, hk] at h
      by_cases hps : p s = true
      · simp only [hps, if_true, Option.some.injEq] at h
        subst h
        cases j with
        | zero => omega
        | succ m =>
          simp only [List.getElem?_cons_succ] at hj
          exact (lastIdxP_none p rest).mp hk sh (List.getElem?_mem hj)
      · simp only [Bool.not_eq_true] at hps
        simp [hps] at h

theorem isTitlePh_not_content (sh : Shape) :
    isTitlePh sh = true → isContentPh sh = false := by
  cases sh with
  | placeholder pt pi ptf => cases pt <;> simp [isTitlePh, isContentPh]
  | picture b bb r => simp [isTitlePh]
  | textBox bb tf => simp [isTitlePh]
  | autoShape bb tf => simp [isTitlePh]
  | generic => simp [isTitlePh]

theorem isTitlePh_isPlaceholder (sh : Shape) :
    isTitlePh sh = true → isPlaceholderB sh = true := by
  cases sh with
  | placeholder pt pi ptf => cases pt <;> simp [isTitlePh, isPlaceholderB]
  | picture b bb r => simp [isTitlePh]
  | textBox bb tf => simp [isTitlePh]
  | autoShape bb tf => simp [isTitlePh]
  | generic => simp [isTitlePh]

theorem isContentPh_isPlaceholder (sh : Shape) :
    isContentPh sh = true → isPlaceholderB sh = true := by
  cases sh with
  | placeholder pt pi ptf => cases pt <;> simp [isContentPh, isPlaceholderB]
  | picture b bb r => simp [isContentPh]
  | textBox bb tf => simp [isContentPh]
  | autoShape bb tf => simp [isContentPh]
  | generic => simp [isContentPh]

theorem phScan_fst_prop (shapes : List Shape) (i : Nat)
    (h : (phScan shapes).1 = some i) :
    ∃ sh, shapes[i]? = some sh ∧ isTitlePh sh = true := by
  rw [phScan_eq] at h
  exact lastIdxP_some_get isTitlePh shapes i h

theorem phScan_snd_prop (shapes : List Shape) (i : Nat)
    (h : (phScan shapes).2 = some i) :
    ∃ sh, shapes[i]? = some sh ∧ isContentPh sh = true := by
  rw [phScan_eq] at h
  exact lastIdxP_some_get isContentPh shapes i h

theorem phScan_fst_ne_snd (shapes : List Shape) (i j : Nat)
    (h1 : (phScan shapes).1 = some i) (h2 : (phScan shapes).2 = some j) :
    i ≠ j := by
  intro hij
  subst hij
  obtain ⟨shT, hgT, hT⟩ := phScan_fst_prop shapes i h1
  obtain ⟨shC, hgC, hC⟩ := phScan_snd_prop shapes i h2
  rw [hgT] at hgC
  injection hgC with he
  subst he
  rw [isTitlePh_not_content shT hT] at hC
  exact absurd hC (by simp)

theorem populate_get?_ne (slide : Slide) (content : ContentItem) (j : Nat)
    (h1 : (phScan slide.shapes).1 ≠ some j) (h2 : (phScan slide.shapes).2 ≠ some j) :
    (populate_slide_content slide content).shapes[j]? = slide.shapes[j]? := by
  unfold populate_slide_content
  cases ht : (phScan slide.shapes).1 with
  | none =>
    cases hc : (phScan slide.shapes).2 with
    | none => simp [ht, hc]
    | some ic =>
      have : ic ≠ j := fun he => h2 (by rw [hc, he])
      by_cases hp : content.points ≠ [] <;>
        simp [ht, hc, hp, modifyAt_get?_ne _ _ (Ne.symm this)]
  | some it =>
    have hit : it ≠ j := fun he => h1 (by rw [ht, he])
    cases hc : (phScan slide.shapes).2 with
    | none =>
      by_cases htt : content.title ≠ "" <;>
        simp [ht, hc, htt, modifyAt_get?_ne _ _ (Ne.symm hit)]
    | some ic =>
      have hic : ic ≠ j := fun he => h2 (by rw [hc, he])
      by_cases htt : content.title ≠ "" <;> by_cases hp : content.points ≠ [] <;>
        simp [ht, hc, htt, hp, modifyAt_get?_ne _ _ (Ne.symm hit),
          modifyAt_get?_ne _ _ (Ne.symm hic)]

theorem populate_get?_title (slide : Slide) (content : ContentItem) (i : Nat)
    (ht : (phScan slide.shapes).1 = some i) (htt : content.title ≠ "") :
    (populate_slide_content slide content).shapes[i]?
      = (slide.shapes[i]?).map (setShapeText content.title) := by
  unfold populate_slide_content
  cases hc : (phScan slide.shapes).2 with
  | none => simp [ht, hc, htt, modifyAt_get?_eq]
  | some ic =>
    have hic : ic ≠ i := Ne.symm (phScan_fst_ne_snd slide.shapes i ic ht hc)
    by_cases hp : content.points ≠ [] <;>
      simp [ht, hc, htt, hp, modifyAt_get?_eq, modifyAt_get?_ne _ _ (Ne.symm hic)]

theorem populate_get?_content (slide : Slide) (content : ContentItem) (i : Nat)
    (hc : (phScan slide.shapes).2 = some i) (hp : content.points ≠ []) :
    (populate_slide_content slide content).shapes[i]?
      = (slide.shapes[i]?).map (setShapeTFBy (populateBodyTF content.points)) := by
  unfold populate_slide_content
  cases ht : (phScan slide.shapes).1 with
  | none => simp [ht, hc, hp, modifyAt_get?_eq]
  | some it =>
    have hit : it ≠ i := phScan_fst_ne_snd slide.shapes it i ht hc
    by_cases htt : content.title ≠ ""
    · simp [ht, hc, htt, hp, modifyAt_get?_eq, modifyAt_get?_ne _ _ (Ne.symm hit)]
    · simp [ht, hc, htt, hp, modifyAt_get?_eq]

theorem populate_mem_nonPh (slide : Slide) (content : ContentItem) (sh : Shape)
    (hph : isPlaceholderB sh = false) (hm : sh ∈ slide.shapes) :
    sh ∈ (populate_slide_content slide content).shapes := by
  obtain ⟨j, hj⟩ := List.mem_iff_getElem?.mp hm
  have h1 : (phScan slide.shapes).1 ≠ some j := by
    intro h
    obtain ⟨shT, hget, hT⟩ := phScan_fst_prop _ _ h
    rw [hj] at hget
    injection hget with he
    rw [he] at hph
    rw [isTitlePh_isPlaceholder shT hT] at hph
    exact absurd hph (by simp)
  have h2 : (phScan slide.shapes).2 ≠ some j := by
    intro h
    obtain ⟨shC, hget, hC⟩ := phScan_snd_prop _ _ h
    rw [hj] at hget
    injection hget with he
    rw [he] at hph
    rw [isContentPh_isPlaceholder shC hC] at hph
    exact absurd hph (by simp)
  exact List.mem_iff_getElem?.mpr ⟨j, by rw [populate_get?_ne slide content j h1 h2, hj]⟩

theorem isBodyPh_setShapeTFBy (f : TextFrame → TextFrame) (sh : Shape) :
    isBodyPh (setShapeTFBy f sh) = isBodyPh sh := by
  cases sh with
  | placeholder pt pi ptf => cases pt <;> simp [setShapeTFBy, isBodyPh]
  | picture b bb r => simp [setShapeTFBy, isBodyPh]
  | textBox bb tf => simp [setShapeTFBy, isBodyPh]
  | autoShape bb tf => simp [setShapeTFBy, isBodyPh]
  | generic => simp [setShapeTFBy, isBodyPh]

theorem firstBodyIdx_go_modify (f : TextFrame → TextFrame) :
    ∀ (l : List Shape) (k i : Nat),
      firstBodyIdx.go i (modifyAt (setShapeTFBy f) k l) = firstBodyIdx.go i l := by
  intro l
  induction l with
  | nil => intro k i; cases k <;> rfl
  | cons s rest ih =>
    intro k i
    cases k with
    | zero =>
      show firstBodyIdx.go i (setShapeTFBy f s :: rest) = firstBodyIdx.go i (s :: rest)
      simp [firstBodyIdx.go, isBodyPh_setShapeTFBy]
    | succ n =>
      show firstBodyIdx.go i (s :: modifyAt (setShapeTFBy f) n rest) = firstBodyIdx.go i (s :: rest)
      by_cases hb : isBodyPh s = true
      · simp [firstBodyIdx.go, hb]
      · simp only [Bool.not_eq_true] at hb
        simp [firstBodyIdx.go, hb, ih]

theorem fallback_get_body (slide : Slide) (content : ContentItem) (i : Nat)
    (hb : firstBodyIdx slide.shapes = some i)
    (hnt : shapesTitleIdx slide.shapes ≠ some i)
    (hp : content.points ≠ []) :
    (fallbackFillSlide slide content).shapes[i]?
      = (slide.shapes[i]?).map (setShapeTFBy (populateBodyTF content.points)) := by
  have hfun : (fun tf => let tf := clearTF tf;
      if content.points ≠ [] then addPointsTF tf content.points else tf)
      = populateBodyTF content.points := by
    funext tf
    simp [populateBodyTF, hp]
  unfold fallbackFillSlide
  cases hti : shapesTitleIdx slide.shapes with
  | none =>
    simp only [hti, hb, hfun]
    rw [modifyAt_get?_eq]
  | some it =>
    have hit : it ≠ i := fun he => hnt (by rw [hti, he])
    have hb1 : firstBodyIdx (modifyAt (setShapeText content.title) it slide.shapes) = some i := by
      show firstBodyIdx
          (modifyAt (setShapeTFBy (fun tf => setTFText tf content.title)) it slide.shapes) = some i
      unfold firstBodyIdx at hb ⊢
      rw [firstBodyIdx_go_modify]
      exact hb
    simp only [hti, hb1, hfun]
    rw [modifyAt_get?_eq, modifyAt_get?_ne _ _ (Ne.symm hit)]

theorem copy_shape_append (env : Env) (sh : Shape) (t : Slide) :
    ∃ add, (copy_shape_to_slide env sh t).shapes = t.shapes ++ add
      ∧ (∀ x ∈ add, isPlaceholderB x = false)
      ∧ (copy_shape_to_slide env sh t).layout = t.layout := by
  cases sh with
  | placeholder pt pi ptf => exact ⟨[], by simp [copy_shape_to_slide], by simp, rfl⟩
  | picture b bb r =>
    by_cases hok : env.picOk b bb = true
    · refine ⟨[Shape.picture b bb (some (r.getD 0))], ?_, ?_, ?_⟩
      · simp [copy_shape_to_slide, copy_image_shape, hok]
      · simp [isPlaceholderB]
      · simp [copy_shape_to_slide, copy_image_shape, hok]
    · simp only [Bool.not_eq_true] at hok
      refine ⟨[], ?_, ?_, ?_⟩
      · simp [copy_shape_to_slide, copy_image_shape, hok]
      · simp
      · simp [copy_shape_to_slide, copy_image_shape, hok]
  | textBox bb tf =>
    by_cases hok : env.textboxOk bb = true
    · refine ⟨[Shape.textBox bb (copy_text_formatting tf (setTFText ⟨[mkPara ""]⟩ (tfText tf)))],
        ?_, ?_, ?_⟩
      · simp [copy_shape_to_slide, copy_text_or_shape, hok]
      · simp [isPlaceholderB]
      · simp [copy_shape_to_slide, copy_text_or_shape, hok]
    · simp only [Bool.not_eq_true] at hok
      refine ⟨[], ?_, ?_, ?_⟩
      · simp [copy_shape_to_slide, copy_text_or_shape, hok]
      · simp
      · simp [copy_shape_to_slide, copy_text_or_shape, hok]
  | autoShape bb tfo =>
    cases tfo with
    | none => exact ⟨[], by simp [copy_shape_to_slide, copy_text_or_shape], by simp, by simp [copy_shape_to_slide, copy_text_or_shape]⟩
    | some tf =>
      by_cases hok : env.textboxOk bb = true
      · refine ⟨[Shape.textBox bb (copy_text_formatting tf (setTFText ⟨[mkPara ""]⟩ (tfText tf)))],
          ?_, ?_, ?_⟩
        · simp [copy_shape_to_slide, copy_text_or_shape, hok]
        · simp [isPlaceholderB]
        · simp [copy_shape_to_slide, copy_text_or_shape, hok]
      · simp only [Bool.not_eq_true] at hok
        refine ⟨[], ?_, ?_, ?_⟩
        · simp [copy_shape_to_slide, copy_text_or_shape, hok]
        · simp
        · simp [copy_shape_to_slide, copy_text_or_shape, hok]
  | generic => exact ⟨[], by simp [copy_shape_to_slide], by simp, rfl⟩

theorem copy_fold_spec (env : Env) :
    ∀ (l : List Shape) (t : Slide),
      ∃ add, ((l.foldl (fun tgt sh => copy_shape_to_slide env sh tgt) t).shapes = t.shapes ++ add)
        ∧ (∀ x ∈ add, isPlaceholderB x = false)
        ∧ ((l.foldl (fun tgt sh => copy_shape_to_slide env sh tgt) t).layout = t.layout) := by
  intro l
  induction l with
  | nil => intro t; exact ⟨[], by simp, by simp, rfl⟩
  | cons s rest ih =>
    intro t
    obtain ⟨a1, h1, hp1, hl1⟩ := copy_shape_append env s t
    obtain ⟨a2, h2, hp2, hl2⟩ := ih (copy_shape_to_slide env s t)
    refine ⟨a1 ++ a2, ?_, ?_, ?_⟩
    · simp only [List.foldl] at *
      rw [h2, h1, List.append_assoc]
    · intro x hx
      rcases List.mem_append.mp hx with hx | hx
      · exact hp1 x hx
      · exact hp2 x hx
    · simp only [List.foldl] at *
      rw [hl2, hl1]

theorem copy_visual_spec (env : Env) (tmpl tgt : Slide) :
    ∃ add, (copy_template_visual_elements env tmpl tgt).shapes = tgt.shapes ++ add
      ∧ (∀ x ∈ add, isPlaceholderB x = false)
      ∧ (copy_template_visual_elements env tmpl tgt).layout = tgt.layout := by
  unfold copy_template_visual_elements
  exact copy_fold_spec env _ tgt

theorem copy_fold_mem_mono (env : Env) (l : List Shape) (t : Slide) (sh : Shape)
    (hm : sh ∈ t.shapes) :
    sh ∈ ((l.foldl (fun tgt s => copy_shape_to_slide env s tgt) t).shapes) := by
  obtain ⟨add, he, -, -⟩ := copy_fold_spec env l t
  rw [he]
  exact List.mem_append_left _ hm

theorem copy_fold_mem_pic (env : Env) (blob : List Nat) (bbox : BBox) (rot : Option Int) :
    ∀ (l : List Shape) (t : Slide),
      Shape.picture blob bbox rot ∈ l → env.picOk blob bbox = true →
      Shape.picture blob bbox (some (rot.getD 0))
        ∈ (l.foldl (fun tgt s => copy_shape_to_slide env s tgt) t).shapes := by
  intro l
  induction l with
  | nil => intro t hm _; simp at hm
  | cons s rest ih =>
    intro t hm hok
    rcases List.mem_cons.mp hm with he | hm2
    · have hmem : Shape.picture blob bbox (some (rot.getD 0))
          ∈ (copy_shape_to_slide env s t).shapes := by
        rw [← he]
        simp [copy_shape_to_slide, copy_image_shape, hok]
      exact copy_fold_mem_mono env rest _ _ hmem
    · exact ih (copy_shape_to_slide env s t) hm2 hok

theorem populateBodyTF_texts (tf : TextFrame) (points : List String) (hp : points ≠ []) :
    (populateBodyTF points tf).paragraphs.map Para.text = points
    ∧ ∀ q ∈ (populateBodyTF points tf).paragraphs.drop 1, q.level = 0 := by
  obtain ⟨p0, rest, rfl⟩ : ∃ p0 rest, points = p0 :: rest := by
    cases points with
    | nil => exact absurd rfl hp
    | cons a b => exact ⟨a, b, rfl⟩
  have he : ∃ q : Para, (populateBodyTF (p0 :: rest) tf).paragraphs
      = { q with text := p0 } :: rest.map mkPara := by
    cases htf : tf.paragraphs with
    | nil => exact ⟨mkPara "", by simp [populateBodyTF, addPointsTF, clearTF, htf]⟩
    | cons q qs =>
      exact ⟨{ q with text := "" }, by simp [populateBodyTF, addPointsTF, clearTF, htf]⟩
  obtain ⟨q, he⟩ := he
  rw [he]
  constructor
  · have hid : Para.text ∘ mkPara = id := funext fun x => rfl
    simp [List.map_map, hid]
  · intro r hr
    simp only [List.drop_succ_cons, List.drop_zero] at hr
    obtain ⟨x, hx, hxe⟩ := List.mem_map.mp hr
    rw [← hxe]
    rfl

theorem templateAttempt_ok (env : Env) (items : List ContentItem) (tp : Document)
    (path : String) (doc : Document)
    (h : templateAttempt env items tp path = .ok doc) :
    env.saveOk path = true ∧ doc.slides.length = items.length
      ∧ ∀ p', env.saveOk p' = true → templateAttempt env items tp p' = .ok doc := by
  cases hfb : find_best_content_slide tp with
  | some s =>
    simp only [templateAttempt, hfb] at h
    by_cases hsv : env.saveOk path = true
    · simp only [hsv, if_true, Except.ok.injEq] at h
      refine ⟨hsv, ?_, ?_⟩
      · rw [← h, fold_dup_length, removeAllSlides_eq_nil]
        simp
      · intro p' hp'
        simp only [templateAttempt, hfb, hp', if_true, h]
    · simp [hsv] at h
  | none =>
    cases hly : tp.slideLayouts.get? 1 with
    | some l =>
      simp only [templateAttempt, hfb, hly] at h
      by_cases hsv : env.saveOk path = true
      · simp only [hsv, if_true, Except.ok.injEq] at h
        refine ⟨hsv, ?_, ?_⟩
        · rw [← h, fold_dup_length, removeAllSlides_eq_nil]
          simp
        · intro p' hp'
          simp only [templateAttempt, hfb, hly, hp', if_true, h]
      · simp [hsv] at h
    | none =>
      simp only [templateAttempt, hfb, hly] at h
      exact absurd h (by simp)

theorem create_basic_ok (env : Env) (items : List ContentItem) (path : String)
    (doc : Document)
    (h : create_basic_presentation env items path = .ok doc) :
    env.saveOk path = true ∧ doc.slides.length = items.length
      ∧ ∀ p', env.saveOk p' = true → create_basic_presentation env items p' = .ok doc := by
  cases hly : (if 1 < env.defaultLayouts.length then env.defaultLayouts.get? 1
               else env.defaultLayouts.get? 0) with
  | none =>
    simp only [create_basic_presentation, hly] at h
    exact absurd h (by simp)
  | some layout =>
    simp only [create_basic_presentation, hly] at h
    by_cases hsv : env.saveOk path = true
    · simp only [hsv, if_true, Except.ok.injEq] at h
      refine ⟨hsv, ?_, ?_⟩
      · rw [← h, fold_fallback_length]
        simp
      · intro p' hp'
        simp only [create_basic_presentation, hly, hp', if_true, h]
    · simp [hsv] at h

theorem create_basic_succeeds (env : Env) (items : List ContentItem) (path : String)
    (h1 : env.defaultLayouts ≠ []) (h2 : env.saveOk path = true) :
    ∃ doc, create_basic_presentation env items path = .ok doc := by
  cases hres : create_basic_presentation env items path with
  | ok doc => exact ⟨doc, rfl⟩
  | error e =>
    exfalso
    have hsome : ∃ l, (if 1 < env.defaultLayouts.length then env.defaultLayouts.get? 1
        else env.defaultLayouts.get? 0) = some l := by
      cases hdl : env.defaultLayouts with
      | nil => exact absurd hdl h1
      | cons l0 rest =>
        cases rest with
        | nil => exact ⟨l0, by simp⟩
        | cons l1 rest2 => exact ⟨l1, by simp⟩
    obtain ⟨l, hly⟩ := hsome
    unfold create_basic_presentation at hres
    rw [hly] at hres
    simp [h2] at hres

theorem create_ok_save (env : Env) (items : List ContentItem)
    (template : Option (Except String Document)) (path : String) (doc : Document)
    (h : create_ppt_from_template env items template path = .ok doc) :
    env.saveOk path = true := by
  cases template with
  | none =>
    exact (create_basic_ok env items path doc (by simpa [create_ppt_from_template] using h)).1
  | some tl =>
    cases tl with
    | error e =>
      have hb : create_basic_presentation env items path = .ok doc := by
        simpa [create_ppt_from_template, Except.bind] using h
      exact (create_basic_ok env items path doc hb).1
    | ok tp =>
      cases hA : templateAttempt env items tp path with
      | ok d => exact (templateAttempt_ok env items tp path d hA).1
      | error e =>
        have hb : create_basic_presentation env items path = .ok doc := by
          simpa [create_ppt_from_template, Except.bind, hA] using h
        exact (create_basic_ok env items path doc hb).1

/-! ### Claim theorems -/

/-- C1: for every input sequence of content items, on both the template
path and the fallback path, a successfully saved output deck contains
exactly one slide per content item: its slide count equals the length of
the items sequence. -/
theorem saved_deck_slide_count (env : Env) (items : List ContentItem)
    (template : Option (Except String Document)) (path : String) (doc : Document)
    (h : create_ppt_from_template env items template path = .ok doc) :
    doc.slides.length = items.length := by
  cases template with
  | none =>
    exact (create_basic_ok env items path doc (by simpa [create_ppt_from_template] using h)).2.1
  | some tl =>
    cases tl with
    | error e =>
      have hb : create_basic_presentation env items path = .ok doc := by
        simpa [create_ppt_from_template, Except.bind] using h
      exact (create_basic_ok env items path doc hb).2.1
    | ok tp =>
      cases hA : templateAttempt env items tp path with
      | ok d =>
        have hd : d = doc := by
          simpa [create_ppt_from_template, Except.bind, hA] using h
        rw [← hd]
        exact (templateAttempt_ok env items tp path d hA).2.1
      | error e =>
        have hb : create_basic_presentation env items path = .ok doc := by
          simpa [create_ppt_from_template, Except.bind, hA] using h
        exact (create_basic_ok env items path doc hb).2.1

/-- Witness for C1: a concrete fallback run with one item saves a
one-slide deck. -/
theorem saved_deck_slide_count_witness :
    create_ppt_from_template envT [⟨"t", ["a"]⟩] none "o" = .ok c1Doc
    ∧ c1Doc.slides.length = 1 :=
  ⟨rfl, saved_deck_slide_count envT [⟨"t", ["a"]⟩] none "o" c1Doc rfl⟩

/-- C2: every failure inside the guarded template pipeline is caught at
the top level and the whole operation is redone from scratch by the
fallback builder against the same output path; in particular a corrupt
template load does not raise and still yields a saved fallback deck, and
the only errors that escape `create_ppt_from_template` are errors of the
fallback builder itself. -/
theorem generate_fallback_policy (env : Env) (items : List ContentItem)
    (template : Option (Except String Document)) (path : String) :
    (∀ e, template = some (Except.error e) →
      create_ppt_from_template env items template path
        = create_basic_presentation env items path)
    ∧ (∀ tp e, template = some (Except.ok tp) →
        templateAttempt env items tp path = Except.error e →
        create_ppt_from_template env items template path
          = create_basic_presentation env items path)
    ∧ (∀ e, template = some (Except.error e) → env.defaultLayouts ≠ [] →
        env.saveOk path = true →
        ∃ doc, create_ppt_from_template env items template path = Except.ok doc)
    ∧ (∀ err, create_ppt_from_template env items template path = Except.error err →
        create_basic_presentation env items path = Except.error err) := by
  refine ⟨?_, ?_, ?_, ?_⟩
  · intro e he
    subst he
    simp [create_ppt_from_template, Except.bind]
  · intro tp e he hA
    subst he
    simp [create_ppt_from_template, Except.bind, hA]
  · intro e he h1 h2
    subst he
    obtain ⟨doc, hdoc⟩ := create_basic_succeeds env items path h1 h2
    exact ⟨doc, by simp [create_ppt_from_template, Except.bind, hdoc]⟩
  · intro err h
    cases template with
    | none => simpa [create_ppt_from_template] using h
    | some tl =>
      cases tl with
      | error e => simpa [create_ppt_from_template, Except.bind] using h
      | ok tp =>
        cases hA : templateAttempt env items tp path with
        | ok d => simp [create_ppt_from_template, Except.bind, hA] at h
        | error e => simpa [create_ppt_from_template, Except.bind, hA] using h

/-- Witness for C2: a concrete corrupt template load redirects to the
fallback builder. -/
theorem generate_fallback_policy_witness :
    create_ppt_from_template envT [] (some (Except.error "corrupt")) "o"
      = create_basic_presentation envT [] "o" :=
  (generate_fallback_policy envT [] (some (Except.error "corrupt")) "o").1 "corrupt" rfl

/-- C3 counterexample: with a Title-only slide followed by a two-Title
slide, the claim's per-slide boolean scoring ties both at 2 and (first
wins) would select the first slide, but the source scores per placeholder
shape (2 vs 4) and selects the second slide. -/
theorem scoring_per_shape_cex :
    claimFindBest docTieBreak = some slideTitleOnly
    ∧ find_best_content_slide docTieBreak = some slideTwoTitles
    ∧ slideTwoTitles ≠ slideTitleOnly
    ∧ claimSlideScore slideTitleOnly = claimSlideScore slideTwoTitles := by
  decide

/-- C3 (amended): the score of a slide is per placeholder shape — +2 for
each Title placeholder, +3 for each Body/Object placeholder, +5 bonus once
when both kinds are present — and `find_best_content_slide` returns the
first slide attaining the strictly highest score, provided positive; in
particular a Title+Body slide (10) beats a Title-only slide (2). -/
theorem find_best_selection_spec :
    (∀ s : Slide, slideScore s
        = 2 * s.shapes.countP isTitlePh + 3 * s.shapes.countP isContentPh
          + (if s.shapes.any isTitlePh && s.shapes.any isContentPh then 5 else 0))
    ∧ (∀ (prs : Document) (s : Slide), find_best_content_slide prs = some s →
        ∃ i : Nat, prs.slides[i]? = some s ∧ 0 < slideScore s
          ∧ (∀ (j : Nat) (y : Slide), prs.slides[j]? = some y → j < i →
              slideScore y < slideScore s)
          ∧ (∀ (j : Nat) (y : Slide), prs.slides[j]? = some y →
              slideScore y ≤ slideScore s))
    ∧ (∀ prs : Document, (∃ s ∈ prs.slides, 0 < slideScore s) →
        ∃ s, find_best_content_slide prs = some s) := by
  refine ⟨slideScore_eq, ?_, ?_⟩
  · intro prs s h
    rcases findBestAux_spec slideScore prs.slides none 0 with ⟨heq, -⟩ |
      ⟨i, x, hget, heq, hpos, hpre, hall⟩
    · unfold find_best_content_slide at h
      rw [heq] at h
      exact absurd h (by simp)
    · unfold find_best_content_slide at h
      rw [heq] at h
      injection h with he
      subst he
      exact ⟨i, hget, hpos, hpre, hall⟩
  · intro prs hex
    obtain ⟨s, hm, hpos⟩ := hex
    rcases findBestAux_spec slideScore prs.slides none 0 with ⟨heq, hall⟩ |
      ⟨i, x, hget, heq, -, -, -⟩
    · exact absurd hpos (by have := hall s hm; omega)
    · exact ⟨x, by unfold find_best_content_slide; rw [heq]⟩

/-- Witness for C3: on the Title-only / Title+Body document the selected
slide is the Title+Body one, which is a first strict argmax. -/
theorem find_best_selection_spec_witness :
    ∃ i : Nat, docTB.slides[i]? = some slideTitleBody ∧ 0 < slideScore slideTitleBody
      ∧ (∀ (j : Nat) (y : Slide), docTB.slides[j]? = some y → j < i →
          slideScore y < slideScore slideTitleBody)
      ∧ (∀ (j : Nat) (y : Slide), docTB.slides[j]? = some y →
          slideScore y ≤ slideScore slideTitleBody) :=
  find_best_selection_spec.2.1 docTB slideTitleBody rfl

/-- C4 counterexample: on a slide holding two Title placeholders, the
title text lands on the second (last) one while the first keeps its old
text — the opposite of the claimed first-match-wins scan. -/
theorem populate_scan_last_cex :
    (populate_slide_content slideDupTitles itemTitleOnly).shapes[0]?
      = some (Shape.placeholder .title 0 ⟨[mkPara "o1"]⟩)
    ∧ (populate_slide_content slideDupTitles itemTitleOnly).shapes[1]?
      = some (Shape.placeholder .title 1 ⟨[mkPara "T"]⟩)
    ∧ slideDupTitles.shapes[1]? = some (Shape.placeholder .title 1 ⟨[mkPara "o2"]⟩) := by
  decide

/-- C4 (amended): the placeholder scan records the last Title placeholder
and the last Body/Object placeholder in shape order (each later match
overwrites the earlier one), and only the shapes at those recorded
indices receive text; every other shape is left unchanged. -/
theorem populate_scan_last_spec (slide : Slide) (item : ContentItem) :
    phScan slide.shapes
      = (lastIdxP isTitlePh slide.shapes, lastIdxP isContentPh slide.shapes)
    ∧ (∀ i : Nat, lastIdxP isTitlePh slide.shapes = some i →
        (∃ sh, slide.shapes[i]? = some sh ∧ isTitlePh sh = true)
        ∧ ∀ (j : Nat) (sh : Shape), i < j → slide.shapes[j]? = some sh →
            isTitlePh sh = false)
    ∧ (∀ i : Nat, lastIdxP isContentPh slide.shapes = some i →
        (∃ sh, slide.shapes[i]? = some sh ∧ isContentPh sh = true)
        ∧ ∀ (j : Nat) (sh : Shape), i < j → slide.shapes[j]? = some sh →
            isContentPh sh = false)
    ∧ (∀ j : Nat, (phScan slide.shapes).1 ≠ some j → (phScan slide.shapes).2 ≠ some j →
        (populate_slide_content slide item).shapes[j]? = slide.shapes[j]?)
    ∧ (∀ i : Nat, (phScan slide.shapes).1 = some i → item.title ≠ "" →
        (populate_slide_content slide item).shapes[i]?
          = (slide.shapes[i]?).map (setShapeText item.title))
    ∧ (∀ i : Nat, (phScan slide.shapes).2 = some i → item.points ≠ [] →
        (populate_slide_content slide item).shapes[i]?
          = (slide.shapes[i]?).map (setShapeTFBy (populateBodyTF item.points))) :=
  ⟨phScan_eq slide.shapes,
   fun i hi => ⟨lastIdxP_some_get _ _ i hi,
     fun j sh hij hj => lastIdxP_last _ _ i hi j sh hij hj⟩,
   fun i hi => ⟨lastIdxP_some_get _ _ i hi,
     fun j sh hij hj => lastIdxP_last _ _ i hi j sh hij hj⟩,
   populate_get?_ne slide item,
   populate_get?_title slide item,
   populate_get?_content slide item⟩

/-- Witness for C4: on the two-Title slide the recorded index is the last
one and it receives the title text. -/
theorem populate_scan_last_spec_witness :
    (populate_slide_content slideDupTitles itemTitleOnly).shapes[1]?
      = (slideDupTitles.shapes[1]?).map (setShapeText itemTitleOnly.title) :=
  (populate_scan_last_spec slideDupTitles itemTitleOnly).2.2.2.2.1 1 (by decide) (by decide)

/-- C5 counterexample: on the fallback path, a slide whose only content
placeholder is an Object placeholder keeps its old text — the fallback
builder matches Body-kind placeholders only, so the non-empty points list
is dropped instead of written. -/
theorem fallback_object_placeholder_cex :
    (create_basic_presentation envObjOnly [⟨"", ["a"]⟩] "o").map
        (fun d => d.slides.map slideTexts) = Except.ok [[["x"]]]
    ∧ (["x"] : List String) ≠ ["a"] :=
  ⟨rfl, by decide⟩

/-- C5 (amended): the point-population rule writes the points exactly, in
order, with every appended paragraph at level 0; on the template path it
is applied to the scanned (last) Body/Object placeholder; the fallback
builder applies the same rule but only to the first Body-kind
placeholder (Object placeholders are not populated on the fallback
path). -/
theorem points_population_spec :
    (∀ (tf : TextFrame) (points : List String), points ≠ [] →
      (populateBodyTF points tf).paragraphs.map Para.text = points
      ∧ ∀ q ∈ (populateBodyTF points tf).paragraphs.drop 1, q.level = 0)
    ∧ (∀ (slide : Slide) (item : ContentItem) (i : Nat),
        (phScan slide.shapes).2 = some i → item.points ≠ [] →
        (populate_slide_content slide item).shapes[i]?
          = (slide.shapes[i]?).map (setShapeTFBy (populateBodyTF item.points)))
    ∧ (∀ (slide : Slide) (item : ContentItem) (i : Nat),
        firstBodyIdx slide.shapes = some i → shapesTitleIdx slide.shapes ≠ some i →
        item.points ≠ [] →
        (fallbackFillSlide slide item).shapes[i]?
          = (slide.shapes[i]?).map (setShapeTFBy (populateBodyTF item.points))) :=
  ⟨fun tf points hp => populateBodyTF_texts tf points hp,
   fun slide item i hc hp => populate_get?_content slide item i hc hp,
   fun slide item i hb hnt hp => fallback_get_body slide item i hb hnt hp⟩

/-- Witness for C5: the spec's example — points a, b, c populate exactly
the paragraphs a, b, c with the appended ones at level 0. -/
theorem points_population_spec_witness :
    (populateBodyTF ["a", "b", "c"] ⟨[]⟩).paragraphs.map Para.text = ["a", "b", "c"]
    ∧ ∀ q ∈ (populateBodyTF ["a", "b", "c"] (⟨[]⟩ : TextFrame)).paragraphs.drop 1,
        q.level = 0 :=
  points_population_spec.1 ⟨[]⟩ ["a", "b", "c"] (by decide)

/-- C6: every picture on the exemplar slide is reproduced on each
generated slide with the same raw bytes and the same left/top/width/height
bounding box, and the source's rotation is carried over when present,
provided the library's picture insertion succeeds. -/
theorem picture_copy_exact (env : Env) (prs : Document) (layout : Layout)
    (tmplSlide : Slide) (item : ContentItem) (blob : List Nat) (bbox : BBox)
    (rot : Option Int)
    (hm : Shape.picture blob bbox rot ∈ tmplSlide.shapes)
    (hok : env.picOk blob bbox = true) :
    ∃ s, duplicate_slide_with_content env prs layout (some tmplSlide) item
        = { prs with slides := prs.slides ++ [s] }
      ∧ Shape.picture blob bbox (some (rot.getD 0)) ∈ s.shapes := by
  refine ⟨populate_slide_content
      (copy_template_visual_elements env tmplSlide (add_slide layout)) item, rfl, ?_⟩
  apply populate_mem_nonPh
  · rfl
  · unfold copy_template_visual_elements
    apply copy_fold_mem_pic
    · exact List.mem_filter.mpr ⟨hm, by simp [isPlaceholderB]⟩
    · exact hok

/-- Witness for C6: the concrete exemplar picture is reproduced on a
generated slide. -/
theorem picture_copy_exact_witness :
    ∃ s, duplicate_slide_with_content envT emptyDoc ⟨[]⟩ (some slideWithPicture) ⟨"t", ["a"]⟩
        = { emptyDoc with slides := emptyDoc.slides ++ [s] }
      ∧ Shape.picture [1, 2] ⟨1, 2, 3, 4⟩ (some ((some (7 : Int)).getD 0)) ∈ s.shapes :=
  picture_copy_exact envT emptyDoc ⟨[]⟩ slideWithPicture ⟨"t", ["a"]⟩ [1, 2] ⟨1, 2, 3, 4⟩
    (some 7) (by decide) rfl

/-- C7: shape replication never raises past its own boundary — whatever
per-shape copies fail, the call returns a slide that keeps the target's
layout, keeps every placeholder it had, and has only non-placeholder
shapes appended. -/
theorem copy_visual_elements_safe (env : Env) (tmpl tgt : Slide) :
    (copy_template_visual_elements env tmpl tgt).shapes.filter isPlaceholderB
      = tgt.shapes.filter isPlaceholderB
    ∧ (copy_template_visual_elements env tmpl tgt).layout = tgt.layout
    ∧ ∃ added, (copy_template_visual_elements env tmpl tgt).shapes = tgt.shapes ++ added
        ∧ ∀ sh ∈ added, isPlaceholderB sh = false := by
  obtain ⟨added, he, hnp, hl⟩ := copy_visual_spec env tmpl tgt
  refine ⟨?_, hl, added, he, hnp⟩
  rw [he, List.filter_append]
  have hz : added.filter isPlaceholderB = [] :=
    List.filter_eq_nil_iff.mpr (fun a ha => by simp [hnp a ha])
  rw [hz, List.append_nil]

/-- Witness for C7: a concrete replication run preserves the target's
placeholder list. -/
theorem copy_visual_elements_safe_witness :
    (copy_template_visual_elements envT slideWithPicture slideTitleBody).shapes.filter
        isPlaceholderB
      = slideTitleBody.shapes.filter isPlaceholderB :=
  (copy_visual_elements_safe envT slideWithPicture slideTitleBody).1

/-- C8: `create_ppt_from_template` is deterministic in its inputs — two
successful runs over identical items and template, saved to two paths,
produce equal decks, hence identical slide counts, identical placeholder
texts per slide, and byte-identical copied images. -/
theorem generate_deterministic (env : Env) (items : List ContentItem)
    (template : Option (Except String Document)) (p1 p2 : String) (d1 d2 : Document)
    (h1 : create_ppt_from_template env items template p1 = .ok d1)
    (h2 : create_ppt_from_template env items template p2 = .ok d2) :
    d1 = d2 ∧ d1.slides.length = d2.slides.length
      ∧ d1.slides.map slideTexts = d2.slides.map slideTexts
      ∧ d1.slides.map slideBlobs = d2.slides.map slideBlobs := by
  have hs1 : env.saveOk p1 = true := create_ok_save env items template p1 d1 h1
  have hs2 : env.saveOk p2 = true := create_ok_save env items template p2 d2 h2
  have hbasic : create_basic_presentation env items p1 = .ok d1 →
      create_basic_presentation env items p2 = .ok d2 → d1 = d2 := by
    intro hb1 hb2
    have hb := (create_basic_ok env items p1 d1 hb1).2.2 p2 hs2
    exact Except.ok.inj (hb.symm.trans hb2)
  have hd : d1 = d2 := by
    cases template with
    | none =>
      exact hbasic (by simpa [create_ppt_from_template] using h1)
        (by simpa [create_ppt_from_template] using h2)
    | some tl =>
      cases tl with
      | error e =>
        exact hbasic (by simpa [create_ppt_from_template, Except.bind] using h1)
          (by simpa [create_ppt_from_template, Except.bind] using h2)
      | ok tp =>
        cases hA1 : templateAttempt env items tp p1 with
        | ok D =>
          have hD1 : D = d1 := by
            simpa [create_ppt_from_template, Except.bind, hA1] using h1
          have hA2 : templateAttempt env items tp p2 = .ok D :=
            (templateAttempt_ok env items tp p1 D hA1).2.2 p2 hs2
          have hD2 : D = d2 := by
            simpa [create_ppt_from_template, Except.bind, hA2] using h2
          rw [← hD1, ← hD2]
        | error e =>
          cases hA2 : templateAttempt env items tp p2 with
          | ok D =>
            have hcontra : templateAttempt env items tp p1 = .ok D :=
              (templateAttempt_ok env items tp p2 D hA2).2.2 p1 hs1
            rw [hA1] at hcontra
            exact absurd hcontra (by simp)
          | error e2 =>
            exact hbasic (by simpa [create_ppt_from_template, Except.bind, hA1] using h1)
              (by simpa [create_ppt_from_template, Except.bind, hA2] using h2)
  exact ⟨hd, by rw [hd], by rw [hd], by rw [hd]⟩

/-- Witness for C8: a concrete pair of runs at two paths yields the same
deck. -/
theorem generate_deterministic_witness :
    c8Doc "p" = c8Doc "q"
    ∧ (c8Doc "p").slides.length = (c8Doc "q").slides.length
    ∧ (c8Doc "p").slides.map slideTexts = (c8Doc "q").slides.map slideTexts
    ∧ (c8Doc "p").slides.map slideBlobs = (c8Doc "q").slides.map slideBlobs :=
  generate_deterministic envT [⟨"t", ["a"]⟩] none "p" "q" (c8Doc "p") (c8Doc "q") rfl rfl

/-- C9: `find_best_content_slide` returns none exactly when no slide of
the document carries a Title or Body/Object placeholder (equivalently, no
slide scores positive), and with no exemplar slide the per-item builder
replicates nothing: the new slide is exactly the populated layout clone. -/
theorem find_best_none_exactly :
    (∀ prs : Document, find_best_content_slide prs = none
      ↔ ∀ s ∈ prs.slides, ∀ sh ∈ s.shapes, isTitlePh sh = false ∧ isContentPh sh = false)
    ∧ (∀ (env : Env) (prs : Document) (layout : Layout) (item : ContentItem),
        duplicate_slide_with_content env prs layout none item
          = { prs with slides := prs.slides ++ [populate_slide_content (add_slide layout) item] }) := by
  constructor
  · intro prs
    constructor
    · intro h s hm
      rcases findBestAux_spec slideScore prs.slides none 0 with ⟨heq, hall⟩ |
        ⟨i, x, hget, heq, hpos, -, -⟩
      · have hz : slideScore s = 0 := by have := hall s hm; omega
        exact (slideScore_eq_zero_iff s).mp hz
      · unfold find_best_content_slide at h
        rw [heq] at h
        exact absurd h (by simp)
    · intro h
      rcases findBestAux_spec slideScore prs.slides none 0 with ⟨heq, -⟩ |
        ⟨i, x, hget, heq, hpos, -, -⟩
      · unfold find_best_content_slide
        rw [heq]
      · have hm : x ∈ prs.slides := List.getElem?_mem hget
        have hz : slideScore x = 0 := (slideScore_eq_zero_iff x).mpr (h x hm)
        omega
  · intro env prs layout item
    rfl

/-- Witness for C9: a document whose single slide has only a generic
shape yields no exemplar. -/
theorem find_best_none_exactly_witness :
    find_best_content_slide ⟨[⟨[Shape.generic], ⟨[]⟩⟩], []⟩ = none :=
  (find_best_none_exactly.1 ⟨[⟨[Shape.generic], ⟨[]⟩⟩], []⟩).mpr (by decide)

/-- C10: with a readable template in which no exemplar slide is found and
fewer than two layouts exist, the unguarded `slide_layouts[1]` access
fails inside the guarded region, so the whole run is diverted to the
fallback builder and no template-based output is produced. -/
theorem missing_layout_falls_back (env : Env) (items : List ContentItem)
    (tdoc : Document) (path : String)
    (hfb : find_best_content_slide tdoc = none)
    (hly : tdoc.slideLayouts.length < 2) :
    create_ppt_from_template env items (some (Except.ok tdoc)) path
      = create_basic_presentation env items path := by
  have hnone : tdoc.slideLayouts[1]? = none := by
    rw [← List.get?_eq_getElem?]
    exact List.get?_eq_none.mpr (by omega)
  have hA : templateAttempt env items tdoc path = Except.error "IndexError: slide_layouts" := by
    simp [templateAttempt, hfb, hnone]
  simp [create_ppt_from_template, Except.bind, hA]

/-- Witness for C10: a concrete slide-less one-layout template is
diverted to the fallback builder. -/
theorem missing_layout_falls_back_witness :
    create_ppt_from_template envT [] (some (Except.ok emptyDoc)) "o"
      = create_basic_presentation envT [] "o" :=
  missing_layout_falls_back envT [] emptyDoc "o" rfl (by decide)

end PptGen
